import Mathlib

/-!
# Verification of the Bombay loan-ledger backend

Shallow embedding of the core of `backend/server.py` (serial-number
generation, interest accrual, payment recording) together with the data
model of `backend/models_update.py`, and proofs checking the
natural-language specification against it.

Modelling conventions:
* Python floats are modelled as exact real numbers (`ℝ`).
* `datetime` values are abstracted to integer timestamps; where only the
  whole-day difference matters (the accrual calculator) the difference in
  days is passed directly, matching `(current_date - start_date).days`.
* Python's built-in `round(x, 2)` rounds half to even; it is modelled
  exactly by `pyRound2` below.
-/

namespace Bombay

/-- Python's `round` on reals: round to the nearest integer, resolving
exact halves to the even neighbour (banker's rounding).  This is the
semantics of the built-in `round` used at `server.py:241-242`. -/
noncomputable def roundHalfEven (x : ℝ) : ℤ :=
  if Int.fract x = 1/2 then (if Even ⌊x⌋ then ⌊x⌋ else ⌊x⌋ + 1) else round x

/-- Python's `round(x, 2)`: scale by 100, round half to even, scale back. -/
noncomputable def pyRound2 (x : ℝ) : ℝ := (roundHalfEven (x * 100) : ℝ) / 100

theorem roundHalfEven_intCast (z : ℤ) : roundHalfEven (z : ℝ) = z := by
  unfold roundHalfEven
  rw [if_neg, round_intCast]
  rw [Int.fract_intCast]
  norm_num

theorem pyRound2_intCast (z : ℤ) : pyRound2 (z : ℝ) = (z : ℝ) := by
  unfold pyRound2
  have h : (z : ℝ) * 100 = ((z * 100 : ℤ) : ℝ) := by push_cast; ring
  rw [h, roundHalfEven_intCast]
  push_cast
  ring

/-- The value of `roundHalfEven` is within half of its argument. -/
theorem abs_roundHalfEven_sub_le (x : ℝ) : |(roundHalfEven x : ℝ) - x| ≤ 1/2 := by
  unfold roundHalfEven
  by_cases h : Int.fract x = 1/2
  · rw [if_pos h]
    have hx : x = (⌊x⌋ : ℝ) + 1/2 := by
      have := Int.fract_add_floor x
      rw [h] at this
      linarith
    by_cases he : Even ⌊x⌋
    · rw [if_pos he, hx]
      rw [abs_le]
      constructor <;> simp <;> norm_num
    · rw [if_neg he, hx]
      rw [abs_le]
      push_cast
      constructor <;> norm_num
  · rw [if_neg h]
    rw [abs_sub_comm]
    exact abs_sub_round x

/-- Result dictionary of `calculate_interest` (`server.py:239-245`). -/
structure InterestResult where
  principal : ℝ
  interest : ℝ
  total_amount : ℝ
  days : ℤ
  interest_type : String

/-- The unrounded `interest` local variable of `calculate_interest`
(`server.py:228-237`): simple interest for `total_days <= 365`, annually
compounded interest (on the fractional elapsed-year exponent) afterwards.
The `annual_rate` binding is abstracted as a parameter; the source binds
it to `0.24` (`server.py:226`), recovered in `calculate_interest` below. -/
noncomputable def raw_interest (annual_rate principal : ℝ) (total_days : ℤ) : ℝ :=
  if total_days ≤ 365 then
    principal * annual_rate * ((total_days : ℝ) / 365)
  else
    principal * (1 + annual_rate) ^ ((total_days : ℝ) / 365) - principal

/-- Embedding of `calculate_interest` (`server.py:217-245`) with the `annual_rate`
binding abstracted.  The whole-day difference `(current_date - start_date).days`
is passed directly as `total_days`.  Both currency outputs go through
Python's `round(_, 2)` exactly as in the source. -/
noncomputable def calculate_interest_at (annual_rate principal : ℝ)
    (total_days : ℤ) : InterestResult :=
  { principal := principal
    interest := pyRound2 (raw_interest annual_rate principal total_days)
    total_amount := pyRound2 (principal + raw_interest annual_rate principal total_days)
    days := total_days
    interest_type := if total_days ≤ 365 then "simple" else "compound" }

/-- The source's `calculate_interest` exactly as written: `annual_rate = 0.24`. -/
noncomputable def calculate_interest (principal : ℝ) (total_days : ℤ) : InterestResult :=
  calculate_interest_at (24/100) principal total_days

/-- Loan record (`backend/models_update.py:1-13`; superset of the model in
`server.py:117-128`, adding `last_interest_payment_date`).  Dates are
abstract integer timestamps, floats are reals, `items` keeps only the
fields of `Item` (`server.py:97-106`). -/
structure Item where
  id : String
  qty : ℤ
  item_name : String
  metal : String
  weight : ℝ
  percentage : ℝ
  fine_weight : ℝ
  value : ℝ

structure Loan where
  id : String
  serial_no : String
  customer_id : String
  customer_name : String
  principal_amount : ℝ
  monthly_interest : ℝ := 2
  loan_date : ℤ
  last_interest_payment_date : Option ℤ := none
  status : String := "active"
  items : List Item := []
  created_at : ℤ

/-- Embedding of `calculate_loan_interest` (`server.py:387-396`): looks up the loan and
calls `calculate_interest(loan["principal_amount"], loan_date)`.  The
loan's `monthly_interest` field is not consulted.  The elapsed whole-day
difference between the loan date and "now" is passed as `total_days`. -/
noncomputable def calculate_loan_interest (loan : Loan) (total_days : ℤ) : InterestResult :=
  calculate_interest loan.principal_amount total_days

theorem roundHalfEven_int_add_half (z : ℤ) :
    roundHalfEven ((z : ℝ) + 1/2) = if Even z then z else z + 1 := by
  have hfr : Int.fract ((z : ℝ) + 1/2) = 1/2 := by
    rw [Int.fract_int_add]
    rw [Int.fract_eq_self]
    norm_num
  have hfl : ⌊(z : ℝ) + 1/2⌋ = z := by
    rw [Int.floor_int_add]
    norm_num
  unfold roundHalfEven
  rw [if_pos hfr, hfl]

/-- Each `pyRound2` output is an exact multiple of a hundredth and lies
within half a hundredth of its argument. -/
theorem pyRound2_spec (x : ℝ) :
    ∃ z : ℤ, pyRound2 x = (z : ℝ) / 100 ∧ |pyRound2 x - x| ≤ 1/200 := by
  refine ⟨roundHalfEven (x * 100), rfl, ?_⟩
  have h := abs_roundHalfEven_sub_le (x * 100)
  have h100 : pyRound2 x - x = ((roundHalfEven (x * 100) : ℝ) - x * 100) / 100 := by
    unfold pyRound2
    ring
  rw [h100, abs_div]
  rw [abs_of_pos (by norm_num : (0:ℝ) < 100)]
  linarith

theorem raw_interest_730 : raw_interest (24/100) 50000 730 = 26880 := by
  unfold raw_interest
  rw [if_neg (by norm_num)]
  have h : ((730 : ℤ) : ℝ) / 365 = ((2 : ℕ) : ℝ) := by norm_num
  rw [h, Real.rpow_natCast]
  norm_num

/-- C1: for every principal, annual rate and whole-day difference `d`, the
accrual computation is in the `simple` regime with
`interest = round2(principal * rate * (d / 365))` whenever `d ≤ 365`
(including exactly 365), and in the `compound` regime with
`total = round2(principal * (1 + rate)^(d/365))` and
`interest = round2(total_unrounded - principal)` whenever `d > 365`; at
the source's fixed rate, `accrue(50000, 0.24, d0, d0+730d)` returns total
`76880.00` and interest `26880.00` exactly. -/
theorem C1_accrual_regimes (annual_rate principal : ℝ) (d : ℤ) :
    (d ≤ 365 →
      (calculate_interest_at annual_rate principal d).interest_type = "simple" ∧
      (calculate_interest_at annual_rate principal d).interest
        = pyRound2 (principal * annual_rate * ((d : ℝ) / 365)) ∧
      (calculate_interest_at annual_rate principal d).total_amount
        = pyRound2 (principal + principal * annual_rate * ((d : ℝ) / 365))) ∧
    (365 < d →
      (calculate_interest_at annual_rate principal d).interest_type = "compound" ∧
      (calculate_interest_at annual_rate principal d).total_amount
        = pyRound2 (principal * (1 + annual_rate) ^ ((d : ℝ) / 365)) ∧
      (calculate_interest_at annual_rate principal d).interest
        = pyRound2 (principal * (1 + annual_rate) ^ ((d : ℝ) / 365) - principal)) ∧
    (calculate_interest 50000 730).total_amount = 76880 ∧
    (calculate_interest 50000 730).interest = 26880 := by
  refine ⟨?_, ?_, ?_, ?_⟩
  · intro h
    simp only [calculate_interest_at, raw_interest, if_pos h]
    exact ⟨trivial, trivial, trivial⟩
  · intro h
    have h' : ¬ d ≤ 365 := by omega
    simp only [calculate_interest_at, raw_interest, if_neg h']
    refine ⟨trivial, ?_, trivial⟩
    congr 1
    ring
  · show pyRound2 (50000 + raw_interest (24/100) 50000 730) = 76880
    rw [raw_interest_730]
    have h : (50000 : ℝ) + 26880 = ((76880 : ℤ) : ℝ) := by norm_num
    rw [h, pyRound2_intCast]
    norm_num
  · show pyRound2 (raw_interest (24/100) 50000 730) = 26880
    rw [raw_interest_730]
    have h : (26880 : ℝ) = ((26880 : ℤ) : ℝ) := by norm_num
    rw [h, pyRound2_intCast]

/-- Witness for C1 at concrete inputs: both regime hypotheses discharged. -/
theorem C1_accrual_regimes_witness :
    ((calculate_interest_at (24/100) 50000 365).interest_type = "simple" ∧
      (calculate_interest_at (24/100) 50000 365).interest
        = pyRound2 (50000 * (24/100) * (((365 : ℤ) : ℝ) / 365)) ∧
      (calculate_interest_at (24/100) 50000 365).total_amount
        = pyRound2 (50000 + 50000 * (24/100) * (((365 : ℤ) : ℝ) / 365))) ∧
    ((calculate_interest_at (24/100) 50000 730).interest_type = "compound" ∧
      (calculate_interest_at (24/100) 50000 730).total_amount
        = pyRound2 (50000 * (1 + 24/100) ^ (((730 : ℤ) : ℝ) / 365)) ∧
      (calculate_interest_at (24/100) 50000 730).interest
        = pyRound2 (50000 * (1 + 24/100) ^ (((730 : ℤ) : ℝ) / 365) - 50000)) :=
  ⟨(C1_accrual_regimes (24/100) 50000 365).1 (by norm_num),
   (C1_accrual_regimes (24/100) 50000 730).2.1 (by norm_num)⟩

theorem pyRound2_eq_intCast {x : ℝ} {z : ℤ} (h : x = (z : ℝ)) :
    pyRound2 x = (z : ℝ) := by
  rw [h, pyRound2_intCast]

theorem pyRound2_nonpos {x : ℝ} (h : x ≤ 0) : pyRound2 x ≤ 0 := by
  have hb := abs_roundHalfEven_sub_le (x * 100)
  have hx : x * 100 ≤ 0 := by nlinarith
  have h1 : ((roundHalfEven (x * 100) : ℤ) : ℝ) ≤ 1/2 := by
    have := abs_le.1 hb
    linarith
  have h2 : roundHalfEven (x * 100) ≤ 0 := by
    by_contra hc
    push_neg at hc
    have : (1 : ℝ) ≤ ((roundHalfEven (x * 100) : ℤ) : ℝ) := by
      exact_mod_cast hc
    linarith
  unfold pyRound2
  have : ((roundHalfEven (x * 100) : ℤ) : ℝ) ≤ 0 := by exact_mod_cast h2
  linarith

/-- A loan with the default 2%-monthly rate, used as a concrete test input. -/
def loanTwoPct : Loan :=
  { id := "L1", serial_no := "A150", customer_id := "c1",
    customer_name := "Rajesh", principal_amount := 50000,
    monthly_interest := 2, loan_date := 0, created_at := 0 }

/-- Identical to `loanTwoPct` except for a 3%-monthly rate. -/
def loanThreePct : Loan :=
  { loanTwoPct with id := "L2", monthly_interest := 3 }

/-- C2 counterexample: two loans identical except for their monthly rates
receive the *same* interest; moreover the loan with monthly rate 3 is not
charged at `3 × 12 / 100 = 36%` (which would give 18000 over 365 days on
50000) but at the fixed 24% (12000).  This falsifies the claim that the
per-loan interest computation uses `annualRate = monthlyRate × 12 / 100`. -/
theorem C2_cex :
    loanTwoPct.monthly_interest ≠ loanThreePct.monthly_interest ∧
    loanTwoPct.principal_amount = loanThreePct.principal_amount ∧
    calculate_loan_interest loanTwoPct 365 = calculate_loan_interest loanThreePct 365 ∧
    (calculate_loan_interest loanThreePct 365).interest = 12000 ∧
    (12000 : ℝ) ≠ pyRound2 (loanThreePct.principal_amount *
      (loanThreePct.monthly_interest * 12 / 100) * (((365 : ℤ) : ℝ) / 365)) := by
  refine ⟨by norm_num [loanTwoPct, loanThreePct], rfl, rfl, ?_, ?_⟩
  · show pyRound2 (raw_interest (24/100) 50000 365) = 12000
    apply pyRound2_eq_intCast (z := 12000)
    unfold raw_interest
    rw [if_pos (by norm_num)]
    push_cast
    norm_num
  · have h : pyRound2 (loanThreePct.principal_amount *
        (loanThreePct.monthly_interest * 12 / 100) * (((365 : ℤ) : ℝ) / 365))
        = ((18000 : ℤ) : ℝ) := by
      apply pyRound2_eq_intCast
      show (50000 : ℝ) * ((3 : ℝ) * 12 / 100) * (((365 : ℤ) : ℝ) / 365) = _
      push_cast
      norm_num
    rw [h]
    norm_num

/-- C2 amended: the per-loan interest computation ignores the loan's
`monthly_interest` entirely, always using the fixed 24% annual rate; any
two loans with equal principal receive identical interest results over the
same elapsed period, whatever their monthly rates. -/
theorem C2_rate_ignored (l1 l2 : Loan) (d : ℤ)
    (h : l1.principal_amount = l2.principal_amount) :
    calculate_loan_interest l1 d = calculate_loan_interest l2 d := by
  unfold calculate_loan_interest
  rw [h]

/-- Witness for C2 amended at the two concrete loans. -/
theorem C2_rate_ignored_witness :
    calculate_loan_interest loanTwoPct 365 = calculate_loan_interest loanThreePct 365 :=
  C2_rate_ignored loanTwoPct loanThreePct 365 rfl

theorem raw_interest_neg_one : raw_interest (24/100) 50000 (-1) = -(2400/73) := by
  unfold raw_interest
  rw [if_pos (by norm_num)]
  push_cast
  norm_num

/-- C3 counterexample: with the as-of date one day before the start date
(`total_days = -1`) the computation does not fail: it returns a
simple-regime result with strictly negative interest. -/
theorem C3_cex :
    (calculate_interest 50000 (-1)).interest_type = "simple" ∧
    (calculate_interest 50000 (-1)).interest < 0 := by
  constructor
  · show (if (-1 : ℤ) ≤ 365 then "simple" else "compound") = "simple"
    rw [if_pos (by norm_num)]
  · show pyRound2 (raw_interest (24/100) 50000 (-1)) < 0
    rw [raw_interest_neg_one]
    obtain ⟨z, hz, hb⟩ := pyRound2_spec (-(2400/73) : ℝ)
    have := abs_le.1 hb
    linarith

/-- C3 amended: the accrual computation performs no start/as-of ordering
check; a strictly earlier as-of date produces a negative day count and a
"simple"-regime result whose interest is the rounded negative value
`principal × 0.24 × d/365 ≤ 0` rather than a domain error. -/
theorem C3_negative_days (principal : ℝ) (d : ℤ)
    (hd : d < 0) (hp : 0 ≤ principal) :
    (calculate_interest principal d).interest_type = "simple" ∧
    (calculate_interest principal d).interest
      = pyRound2 (principal * (24/100) * ((d : ℝ) / 365)) ∧
    (calculate_interest principal d).interest ≤ 0 := by
  have h365 : d ≤ 365 := by omega
  refine ⟨?_, ?_, ?_⟩
  · show (if d ≤ 365 then "simple" else "compound") = "simple"
    rw [if_pos h365]
  · show pyRound2 (raw_interest (24/100) principal d) = _
    unfold raw_interest
    rw [if_pos h365]
  · show pyRound2 (raw_interest (24/100) principal d) ≤ 0
    apply pyRound2_nonpos
    unfold raw_interest
    rw [if_pos h365]
    have hdr : ((d : ℝ) / 365) ≤ 0 := by
      apply div_nonpos_of_nonpos_of_nonneg _ (by norm_num)
      exact_mod_cast hd.le
    nlinarith

/-- Witness for C3 amended at `principal = 50000`, `d = -1`. -/
theorem C3_negative_days_witness :
    (calculate_interest 50000 (-1)).interest_type = "simple" ∧
    (calculate_interest 50000 (-1)).interest
      = pyRound2 (50000 * (24/100) * (((-1 : ℤ) : ℝ) / 365)) ∧
    (calculate_interest 50000 (-1)).interest ≤ 0 :=
  C3_negative_days 50000 (-1) (by norm_num) (by norm_num)

/-- C9 amended: both currency outputs of the accrual computation are exact
multiples of one hundredth lying within half a hundredth of the unrounded
value; the tie-breaking rule is Python's round-half-to-even, not
round-half-up (see the counterexample). -/
theorem C9_round_two_places (principal : ℝ) (d : ℤ) :
    (∃ z : ℤ, (calculate_interest principal d).interest = (z : ℝ) / 100 ∧
      |(calculate_interest principal d).interest
        - raw_interest (24/100) principal d| ≤ 1/200) ∧
    (∃ z : ℤ, (calculate_interest principal d).total_amount = (z : ℝ) / 100 ∧
      |(calculate_interest principal d).total_amount
        - (principal + raw_interest (24/100) principal d)| ≤ 1/200) :=
  ⟨pyRound2_spec _, pyRound2_spec _⟩

/-- C9 counterexample: at `principal = 25/48`, `d = 365` the unrounded
interest is exactly `0.125` — third decimal digit exactly 5 — and the
returned interest is `0.12` (round-half-to-even), not the `0.13` that
round-half-up (away from zero) would produce. -/
theorem C9_cex :
    raw_interest (24/100) (25/48) 365 = 125/1000 ∧
    (calculate_interest (25/48) 365).interest = 12/100 ∧
    (12 : ℝ)/100 ≠ 13/100 := by
  have hraw : raw_interest (24/100) (25/48) 365 = 125/1000 := by
    unfold raw_interest
    rw [if_pos (by norm_num)]
    push_cast
    norm_num
  refine ⟨hraw, ?_, by norm_num⟩
  show pyRound2 (raw_interest (24/100) (25/48) 365) = 12/100
  rw [hraw]
  unfold pyRound2
  have h : (125/1000 : ℝ) * 100 = ((12 : ℤ) : ℝ) + 1/2 := by norm_num
  rw [h, roundHalfEven_int_add_half]
  rw [if_pos (by decide)]
  norm_num

/-- Payment record (`backend/models_update.py:23-36`; superset of the
model in `server.py:138-148`, adding the transaction type and split). -/
structure Payment where
  id : String
  loan_id : String
  loan_serial_no : String
  customer_name : String
  amount : ℝ
  payment_date : ℤ
  payment_type : String := "cash"
  transaction_type : String := "interest"
  principal_paid : ℝ := 0
  interest_paid : ℝ := 0
  notes : Option String := none
  created_at : ℤ

/-- Payment request body (`backend/models_update.py:38-45`). -/
structure PaymentCreate where
  loan_id : String
  amount : ℝ
  payment_date : ℤ
  transaction_type : String := "interest"
  principal_paid : ℝ := 0
  interest_paid : ℝ := 0
  notes : Option String := none

/-- The persisted ledger: the loan collection plus the append-only payment
collection. -/
structure LedgerState where
  loans : List Loan
  payments : List Payment

/-- Error kinds of the specification; `notFound` models
`HTTPException(status_code=404)`, the only error `create_payment` raises. -/
inductive ApiError where
  | notFound
  | validationError
  | conflictError
deriving DecidableEq

/-- The lookup `db.loans.find_one({"id": loan_id})` (`server.py:432`). -/
def find_loan (loans : List Loan) (loan_id : String) : Option Loan :=
  loans.find? (fun l => l.id == loan_id)

/-- The payment document assembled by `create_payment`
(`server.py:436-439`): the request's fields plus the loan's serial number
and customer name; the fresh id and creation time are passed in. -/
def paymentRecord (pd : PaymentCreate) (loan : Loan) (new_id : String) (now : ℤ) : Payment :=
  { id := new_id, loan_id := pd.loan_id, loan_serial_no := loan.serial_no,
    customer_name := loan.customer_name, amount := pd.amount,
    payment_date := pd.payment_date, payment_type := "cash",
    transaction_type := pd.transaction_type, principal_paid := pd.principal_paid,
    interest_paid := pd.interest_paid, notes := pd.notes, created_at := now }

/-- Embedding of `create_payment` (`server.py:429-446`): looks up the loan (404 when
absent) and inserts the payment document.  No other validation happens
and the loan collection is never written. -/
def create_payment (state : LedgerState) (pd : PaymentCreate) (new_id : String)
    (now : ℤ) : Except ApiError (LedgerState × Payment) :=
  match find_loan state.loans pd.loan_id with
  | none => .error .notFound
  | some loan =>
      let p := paymentRecord pd loan new_id now
      .ok ({ loans := state.loans, payments := state.payments ++ [p] }, p)

/-- Modelled from the spec: `outstandingPrincipal(loan)` (spec §4.4)
`= principal_amount − Σ principal_paid` over the loan's payments; the
repository contains no ledger-view code. -/
def outstandingPrincipal (loan : Loan) (payments : List Payment) : ℝ :=
  loan.principal_amount -
    ((payments.filter (fun p => p.loan_id == loan.id)).map Payment.principal_paid).sum

/-- A loan already in status `closed`. -/
def closedLoan : Loan :=
  { loanTwoPct with id := "L3", serial_no := "A151", status := "closed" }

/-- A malformed request against the closed loan: non-positive amount and a
`both` split that does not add up. -/
def pdBad : PaymentCreate :=
  { loan_id := "L3", amount := -5, payment_date := 10,
    transaction_type := "both", principal_paid := 600, interest_paid := 500 }

/-- C4 counterexample: a payment against an already-closed loan, with
purpose `both`, a split that does not sum to the amount, and a
non-positive amount, is accepted and appended — no ValidationError and no
ConflictError is ever raised. -/
theorem C4_cex :
    closedLoan.status = "closed" ∧
    pdBad.transaction_type = "both" ∧
    pdBad.principal_paid + pdBad.interest_paid ≠ pdBad.amount ∧
    pdBad.amount ≤ 0 ∧
    create_payment ⟨[closedLoan], []⟩ pdBad "p1" 10
      = .ok (⟨[closedLoan], [paymentRecord pdBad closedLoan "p1" 10]⟩,
             paymentRecord pdBad closedLoan "p1" 10) := by
  refine ⟨rfl, rfl, ?_, ?_, rfl⟩
  · show (600 : ℝ) + 500 ≠ -5
    norm_num
  · show (-5 : ℝ) ≤ 0
    norm_num

/-- C4 amended: `recordPayment` fails NotFound when the referenced loan is
absent, and then no payment is appended; when the loan exists the payment
is appended unconditionally — there is no split validation, no positivity
check and no closed-loan check — and the loan collection is unchanged. -/
theorem C4_notfound_only (state : LedgerState) (pd : PaymentCreate)
    (new_id : String) (now : ℤ) :
    (find_loan state.loans pd.loan_id = none →
      create_payment state pd new_id now = .error .notFound) ∧
    (∀ loan, find_loan state.loans pd.loan_id = some loan →
      create_payment state pd new_id now
        = .ok ({ loans := state.loans,
                 payments := state.payments ++ [paymentRecord pd loan new_id now] },
               paymentRecord pd loan new_id now)) := by
  constructor
  · intro h
    unfold create_payment
    rw [h]
  · intro loan h
    unfold create_payment
    rw [h]

/-- Witness for C4 amended: on an empty ledger the lookup fails and the
call returns NotFound. -/
theorem C4_notfound_only_witness :
    create_payment ⟨[], []⟩ { loan_id := "L9", amount := 5, payment_date := 0 } "p1" 0
      = .error .notFound :=
  (C4_notfound_only ⟨[], []⟩ { loan_id := "L9", amount := 5, payment_date := 0 } "p1" 0).1 rfl

/-- A `full_release` request with a token amount against the active loan. -/
def pdRelease : PaymentCreate :=
  { loan_id := "L1", amount := 100, payment_date := 20,
    transaction_type := "full_release" }

/-- C5 counterexample: after a `full_release` payment the loan is still
`active` (not `closed`) and its outstanding principal is still the full
50000, not zero. -/
theorem C5_cex :
    pdRelease.transaction_type = "full_release" ∧
    create_payment ⟨[loanTwoPct], []⟩ pdRelease "p2" 20
      = .ok (⟨[loanTwoPct], [paymentRecord pdRelease loanTwoPct "p2" 20]⟩,
             paymentRecord pdRelease loanTwoPct "p2" 20) ∧
    loanTwoPct.status = "active" ∧
    loanTwoPct.status ≠ "closed" ∧
    outstandingPrincipal loanTwoPct [paymentRecord pdRelease loanTwoPct "p2" 20] = 50000 ∧
    (50000 : ℝ) ≠ 0 := by
  refine ⟨rfl, rfl, rfl, by decide, ?_, by norm_num⟩
  show (50000 : ℝ) - _ = 50000
  norm_num [paymentRecord, pdRelease, loanTwoPct, List.filter]

/-- C5 amended: a `full_release` payment settles and closes nothing: the
loan collection is untouched (the loan keeps its status and principal)
and the stored payment carries the caller-supplied amount and split
verbatim. -/
theorem C5_full_release_noop (state : LedgerState) (pd : PaymentCreate)
    (new_id : String) (now : ℤ) (loan : Loan)
    (hfind : find_loan state.loans pd.loan_id = some loan)
    (hfr : pd.transaction_type = "full_release") :
    ∃ s' p, create_payment state pd new_id now = .ok (s', p) ∧
      s'.loans = state.loans ∧
      p.amount = pd.amount ∧ p.principal_paid = pd.principal_paid ∧
      p.interest_paid = pd.interest_paid ∧ p.transaction_type = "full_release" := by
  refine ⟨{ loans := state.loans,
            payments := state.payments ++ [paymentRecord pd loan new_id now] },
          paymentRecord pd loan new_id now, ?_, rfl, rfl, rfl, rfl, hfr⟩
  unfold create_payment
  rw [hfind]

/-- Witness for C5 amended at the concrete active loan. -/
theorem C5_full_release_noop_witness :
    ∃ s' p, create_payment ⟨[loanTwoPct], []⟩ pdRelease "p2" 20 = .ok (s', p) ∧
      s'.loans = [loanTwoPct] ∧
      p.amount = pdRelease.amount ∧ p.principal_paid = pdRelease.principal_paid ∧
      p.interest_paid = pdRelease.interest_paid ∧ p.transaction_type = "full_release" :=
  C5_full_release_noop ⟨[loanTwoPct], []⟩ pdRelease "p2" 20 loanTwoPct rfl rfl

/-- An interest-purpose request (defaults: `transaction_type = "interest"`,
`principal_paid = interest_paid = 0`). -/
def pdInterest : PaymentCreate :=
  { loan_id := "L1", amount := 500, payment_date := 30 }

/-- C6 counterexample: an `interest` payment of 500 is stored with
`interest_paid = 0`, not `interest_paid = amount`, and the loan's
`last_interest_payment_date` stays `none` instead of becoming the payment
date. -/
theorem C6_cex :
    pdInterest.transaction_type = "interest" ∧
    pdInterest.amount = 500 ∧
    create_payment ⟨[loanTwoPct], []⟩ pdInterest "p3" 30
      = .ok (⟨[loanTwoPct], [paymentRecord pdInterest loanTwoPct "p3" 30]⟩,
             paymentRecord pdInterest loanTwoPct "p3" 30) ∧
    (paymentRecord pdInterest loanTwoPct "p3" 30).interest_paid = 0 ∧
    (0 : ℝ) ≠ 500 ∧
    loanTwoPct.last_interest_payment_date = none ∧
    (none : Option ℤ) ≠ some 30 := by
  refine ⟨rfl, rfl, rfl, rfl, by norm_num, rfl, by decide⟩

/-- C6 amended: an `interest` payment stores the request's amount and
split verbatim (`interest_paid` is not forced to equal `amount`) and
leaves every loan field — principal balance, status and
`last_interest_payment_date` included — unchanged. -/
theorem C6_interest_no_loan_update (state : LedgerState) (pd : PaymentCreate)
    (new_id : String) (now : ℤ) (loan : Loan)
    (hfind : find_loan state.loans pd.loan_id = some loan)
    (hint : pd.transaction_type = "interest") :
    ∃ s' p, create_payment state pd new_id now = .ok (s', p) ∧
      s'.loans = state.loans ∧
      p.amount = pd.amount ∧ p.principal_paid = pd.principal_paid ∧
      p.interest_paid = pd.interest_paid ∧ p.transaction_type = "interest" := by
  refine ⟨{ loans := state.loans,
            payments := state.payments ++ [paymentRecord pd loan new_id now] },
          paymentRecord pd loan new_id now, ?_, rfl, rfl, rfl, rfl, hint⟩
  unfold create_payment
  rw [hfind]

/-- Witness for C6 amended at the concrete active loan. -/
theorem C6_interest_no_loan_update_witness :
    ∃ s' p, create_payment ⟨[loanTwoPct], []⟩ pdInterest "p3" 30 = .ok (s', p) ∧
      s'.loans = [loanTwoPct] ∧
      p.amount = pdInterest.amount ∧ p.principal_paid = pdInterest.principal_paid ∧
      p.interest_paid = pdInterest.interest_paid ∧ p.transaction_type = "interest" :=
  C6_interest_no_loan_update ⟨[loanTwoPct], []⟩ pdInterest "p3" 30 loanTwoPct rfl rfl

/-- The decimal digit character for `d < 10`. -/
def digitChar (d : ℕ) : Char := Char.ofNat (48 + d)

/-- Decimal digits of `n`, most significant first, with explicit fuel so
that concrete values reduce inside the kernel; `natToChars` supplies
sufficient fuel (`n + 1`, since the recursion divides by 10). -/
def natDigitsAux : ℕ → ℕ → List Char
  | 0, _ => []
  | fuel + 1, n =>
    if n < 10 then [digitChar n]
    else natDigitsAux fuel (n / 10) ++ [digitChar (n % 10)]

/-- Python's `str` on a natural number. -/
def natToChars (n : ℕ) : List Char := natDigitsAux (n + 1) n

/-- Python's `str` on an int: optional minus sign, then decimal digits.
Models the rendering inside the f-string `f"A{next_num}"` (`server.py:215`). -/
def intToChars (n : ℤ) : List Char :=
  if n < 0 then '-' :: natToChars n.natAbs else natToChars n.toNat

/-- Numeric value of a decimal digit character, if it is one. -/
def charDigit (c : Char) : Option ℕ :=
  if '0' ≤ c ∧ c ≤ '9' then some (c.toNat - 48) else none

/-- Accumulating decimal evaluation of a digit string; fails at the first
non-digit character. -/
def parseNatAux : List Char → ℕ → Option ℕ
  | [], acc => some acc
  | c :: cs, acc =>
    match charDigit c with
    | some d => parseNatAux cs (acc * 10 + d)
    | none => none

/-- A non-empty all-digit string evaluated in decimal. -/
def pyParseNat (cs : List Char) : Option ℕ :=
  if cs = [] then none else parseNatAux cs 0

/-- Models Python's `int(s)` on the decimal forms this program produces:
an optional sign followed by one or more decimal digits; anything else
(the empty string included) raises, i.e. returns `none`.  (Python
additionally strips whitespace and allows digit-group underscores; those
forms never occur in this program's serial numbers.) -/
def pyParseInt (cs : List Char) : Option ℤ :=
  match cs with
  | [] => none
  | c :: _ =>
    if c = '-' then (pyParseNat (cs.drop 1)).map (fun n => -(n : ℤ))
    else if c = '+' then (pyParseNat (cs.drop 1)).map (fun n => (n : ℤ))
    else (pyParseNat cs).map (fun n => (n : ℤ))

/-- Embedding of `generate_serial_number` (`server.py:203-215`).  The
`db.loans.find_one(sort=[("created_at", -1)])` lookup — the most recently
created loan — is modelled as the last element of the loan list, which
holds loans in creation order.  The source then tries
`int(serial_no[1:]) + 1` and falls back to 150 when the loan list is
empty, the serial is empty (falsy), or the suffix fails to parse. -/
def generate_serial_number (loans : List Loan) : String :=
  match loans.getLast? with
  | none => ⟨'A' :: intToChars 150⟩
  | some last_loan =>
    if last_loan.serial_no = "" then ⟨'A' :: intToChars 150⟩
    else
      match pyParseInt (last_loan.serial_no.toList.drop 1) with
      | some last_num => ⟨'A' :: intToChars (last_num + 1)⟩
      | none => ⟨'A' :: intToChars 150⟩

theorem charDigit_digitChar (d : ℕ) (h : d < 10) :
    charDigit (digitChar d) = some d := by
  interval_cases d <;> decide

theorem digitChar_ne_sign (d : ℕ) (h : d < 10) :
    digitChar d ≠ '-' ∧ digitChar d ≠ '+' := by
  interval_cases d <;> exact ⟨by decide, by decide⟩

theorem natDigitsAux_ne_nil (fuel n : ℕ) (h : 0 < fuel) :
    natDigitsAux fuel n ≠ [] := by
  cases fuel with
  | zero => omega
  | succ fuel =>
    by_cases h10 : n < 10
    · simp [natDigitsAux, if_pos h10]
    · simp [natDigitsAux, if_neg h10]

theorem natDigitsAux_mem_digit (fuel : ℕ) :
    ∀ n c, c ∈ natDigitsAux fuel n → ∃ d, d < 10 ∧ c = digitChar d := by
  induction fuel with
  | zero => intro n c hc; simp [natDigitsAux] at hc
  | succ fuel ih =>
    intro n c hc
    by_cases h10 : n < 10
    · rw [natDigitsAux, if_pos h10] at hc
      simp at hc
      exact ⟨n, h10, hc⟩
    · rw [natDigitsAux, if_neg h10] at hc
      rcases List.mem_append.1 hc with h1 | h2
      · exact ih _ _ h1
      · simp at h2
        exact ⟨n % 10, Nat.mod_lt _ (by norm_num), h2⟩

theorem parseNatAux_append (xs ys : List Char) (acc : ℕ) :
    parseNatAux (xs ++ ys) acc
      = match parseNatAux xs acc with
        | some a => parseNatAux ys a
        | none => none := by
  induction xs generalizing acc with
  | nil => rfl
  | cons c cs ih =>
    simp only [List.cons_append, parseNatAux]
    cases charDigit c with
    | none => rfl
    | some d => exact ih _

theorem natDigitsAux_parse (fuel : ℕ) :
    ∀ n acc, n < fuel →
      parseNatAux (natDigitsAux fuel n) acc
        = some (acc * 10 ^ (natDigitsAux fuel n).length + n) := by
  induction fuel with
  | zero => omega
  | succ fuel ih =>
    intro n acc h
    by_cases h10 : n < 10
    · rw [natDigitsAux, if_pos h10]
      simp only [parseNatAux, charDigit_digitChar n h10, List.length_singleton]
      rw [pow_one]
    · rw [natDigitsAux, if_neg h10]
      have hpos : 0 < n := by omega
      have hdiv : n / 10 < fuel := by
        have := Nat.div_lt_self hpos (by norm_num : (1:ℕ) < 10)
        omega
      rw [parseNatAux_append, ih (n / 10) acc hdiv]
      simp only [parseNatAux, charDigit_digitChar (n % 10) (Nat.mod_lt _ (by norm_num))]
      have key : (acc * 10 ^ (natDigitsAux fuel (n / 10)).length + n / 10) * 10 + n % 10
          = acc * 10 ^ (natDigitsAux fuel (n / 10)).length.succ + n := by
        calc (acc * 10 ^ (natDigitsAux fuel (n / 10)).length + n / 10) * 10 + n % 10
            = acc * (10 ^ (natDigitsAux fuel (n / 10)).length * 10)
              + (n / 10 * 10 + n % 10) := by ring
          _ = acc * 10 ^ (natDigitsAux fuel (n / 10)).length.succ + n := by
              rw [← pow_succ]
              congr 1
              omega
      rw [key]
      congr 2
      simp [List.length_append]

theorem pyParseNat_natToChars (n : ℕ) : pyParseNat (natToChars n) = some n := by
  unfold pyParseNat natToChars
  rw [if_neg (natDigitsAux_ne_nil (n + 1) n (by omega))]
  rw [natDigitsAux_parse (n + 1) n 0 (by omega)]
  simp

theorem pyParseInt_natToChars (n : ℕ) : pyParseInt (natToChars n) = some (n : ℤ) := by
  cases hl : natToChars n with
  | nil => exact absurd hl (natDigitsAux_ne_nil (n + 1) n (by omega))
  | cons c rest =>
    have hc : c ∈ natToChars n := by rw [hl]; exact List.mem_cons_self c rest
    obtain ⟨d, hd10, rfl⟩ := natDigitsAux_mem_digit (n + 1) n c hc
    obtain ⟨hm, hp⟩ := digitChar_ne_sign d hd10
    rw [pyParseInt]
    rw [if_neg hm, if_neg hp]
    rw [← hl, pyParseNat_natToChars]
    rfl

theorem pyParseInt_intToChars (m : ℤ) (h : 0 ≤ m) :
    pyParseInt (intToChars m) = some m := by
  unfold intToChars
  rw [if_neg (by omega)]
  rw [pyParseInt_natToChars]
  rw [Int.toNat_of_nonneg h]

/-- The generator applied to a ledger whose most recent loan carries the
well-formed serial `A<m>`: it returns `A<m+1>`. -/
theorem generate_serial_number_concat (loans : List Loan) (loan : Loan) (m : ℤ)
    (hm : 0 ≤ m) (hs : loan.serial_no = ⟨'A' :: intToChars m⟩) :
    generate_serial_number (loans ++ [loan]) = ⟨'A' :: intToChars (m + 1)⟩ := by
  have hne : (⟨'A' :: intToChars m⟩ : String) ≠ "" := by
    intro hcontra
    have hdata : 'A' :: intToChars m = [] := congrArg String.data hcontra
    simp at hdata
  have hdrop : (⟨'A' :: intToChars m⟩ : String).toList.drop 1 = intToChars m := rfl
  simp only [generate_serial_number, List.getLast?_concat, hs]
  rw [if_neg hne, hdrop, pyParseInt_intToChars m hm]

/-- Strictly sequential loan creation (`create_loan`, `server.py:338-356`),
restricted to the serial-number flow: each step generates a serial from
the current ledger and appends a loan carrying it. -/
def seqCreate (base : Loan) : ℕ → List Loan
  | 0 => []
  | k + 1 =>
    seqCreate base k ++
      [{ base with serial_no := generate_serial_number (seqCreate base k) }]

theorem seq_serial (base : Loan) (k : ℕ) :
    generate_serial_number (seqCreate base k)
      = ⟨'A' :: intToChars (150 + (k : ℤ))⟩ := by
  induction k with
  | zero =>
    have h0 : (150 + ((0 : ℕ) : ℤ)) = 150 := by norm_num
    rw [h0]
    rfl
  | succ k ih =>
    show generate_serial_number
        (seqCreate base k ++
          [{ base with serial_no := generate_serial_number (seqCreate base k) }]) = _
    rw [generate_serial_number_concat (seqCreate base k) _ (150 + (k : ℤ))
      (by omega) ih]
    have h1 : (150 + (k : ℤ)) + 1 = 150 + ((k + 1 : ℕ) : ℤ) := by push_cast; ring
    rw [h1]

/-- C7: starting from an empty ledger and creating loans strictly
sequentially, the k-th allocation (0-indexed) yields the letter-prefixed
serial `A(150+k)`: the first issued value is `A150` and each subsequent
numeric value is the previous plus one — a strictly increasing contiguous
run. -/
theorem C7_sequential_serials (base : Loan) (k : ℕ) :
    generate_serial_number (seqCreate base k)
      = ⟨'A' :: intToChars (150 + (k : ℤ))⟩ ∧
    pyParseInt ((generate_serial_number (seqCreate base k)).toList.drop 1)
      = some (150 + (k : ℤ)) ∧
    pyParseInt ((generate_serial_number (seqCreate base (k + 1))).toList.drop 1)
      = some ((150 + (k : ℤ)) + 1) ∧
    generate_serial_number (seqCreate base 0) = "A150" := by
  refine ⟨seq_serial base k, ?_, ?_, ?_⟩
  · rw [seq_serial base k]
    show pyParseInt (intToChars (150 + (k : ℤ))) = _
    exact pyParseInt_intToChars _ (by omega)
  · rw [seq_serial base (k + 1)]
    show pyParseInt (intToChars (150 + ((k + 1 : ℕ) : ℤ))) = _
    have h2 : (150 + ((k + 1 : ℕ) : ℤ)) = (150 + (k : ℤ)) + 1 := by push_cast; ring
    rw [h2, pyParseInt_intToChars _ (by omega)]
  · rw [seq_serial base 0]
    decide

/-- Two concurrent `generate_serial_number` calls under the racy schedule
in which both `find_one` reads happen before either insert: each call
computes from the same snapshot of the loan collection. -/
def racedSerials (snapshot : List Loan) : String × String :=
  (generate_serial_number snapshot, generate_serial_number snapshot)

/-- C8: the read-then-compute-next serial generator is not race-free —
under the schedule where both concurrent callers read the same snapshot
(here the empty ledger) both receive `A150`, so the values handed to
concurrent callers are not pairwise distinct. -/
theorem C8_race_duplicate :
    (racedSerials []).1 = (racedSerials []).2 ∧ (racedSerials []).1 = "A150" :=
  ⟨rfl, rfl⟩

/-- A loan whose serial suffix (after stripping the first character) is
empty and hence unparsable. -/
def loanBadSerial : Loan := { loanTwoPct with id := "L4", serial_no := "B" }

/-- C10: whenever the most recently created loan's serial suffix fails to
parse as an integer, the generator silently returns `A150` again;
concretely, after loans `A150` and `B`, the next sequentially generated
serial is again `A150`, duplicating the first loan's serial. -/
theorem C10_malformed_serial_resets (loans : List Loan) (loan : Loan) :
    (loans.getLast? = some loan →
      pyParseInt (loan.serial_no.toList.drop 1) = none →
      generate_serial_number loans = "A150") ∧
    generate_serial_number [loanTwoPct, loanBadSerial] = "A150" ∧
    loanTwoPct.serial_no = "A150" ∧
    pyParseInt (loanBadSerial.serial_no.toList.drop 1) = none := by
  refine ⟨?_, rfl, rfl, rfl⟩
  intro hlast hbad
  simp only [generate_serial_number, hlast]
  by_cases hs : loan.serial_no = ""
  · rw [if_pos hs]
    rfl
  · rw [if_neg hs, hbad]
    rfl

/-- Witness for C10: a ledger whose only loan has the unparsable serial
`B` makes the generator return `A150`. -/
theorem C10_malformed_serial_resets_witness :
    generate_serial_number [loanBadSerial] = "A150" :=
  (C10_malformed_serial_resets [loanBadSerial] loanBadSerial).1 rfl rfl

end Bombay
